import Mathlib

/-!
Global error presenter (`public/error_handler.js`)

The script installs one function in `window.onerror`.  The function looks up
the element with id `error-display`; when it is there, it sets the element's
`style.display` to `"flex"`, looks up the element with id
`error-display-text` and assigns the formatted message to its `innerText`.

The document is embedded as a tree of nodes in the first-child / next-sibling
form of the DOM: a child list is either empty, or a text node followed by its
next siblings, or an element with its own child list followed by its next
siblings.  An element reference (what `document.getElementById` returns) is
the route to the element from the first node of the document.  Assigning
`innerText` replaces the child list of the element by the text and `br` nodes
of the assigned string, so elements below it leave the document.  The line and
column arguments are script Numbers holding non-negative integers; their
conversion to a string follows the language's number-to-string rule.  A call
of the function is a pure function from the arguments and the document to the
document afterwards, paired with how the call ended (a returned value, or a
thrown `TypeError`).

What a browser computes from style sheets (whether an element is rendered, the
value the `innerText` getter derives from the rendering) is not modelled: the
text of an element is read as its text content, the concatenation of the text
nodes below it.
-/

set_option autoImplicit false

namespace ErrorHandler

/-! ## Data model -/

/-- Script values, as far as the handler's fifth argument and its result need
them.  The handler never inspects such a value. -/
inductive JSValue where
  | undefined
  | null
  | bool (b : Bool)
  | number (n : Int)
  | string (s : String)
  | object (ref : Nat)
  deriving DecidableEq, Repr

/-- The faults the handler's body can raise. -/
inductive Fault where
  /-- Assignment to a property of `null`. -/
  | typeError
  deriving DecidableEq, Repr

/-- How a call ended. -/
inductive Completion where
  | normal (value : JSValue)
  | throw (fault : Fault)
  deriving DecidableEq, Repr

/-- A call completes when it ends by returning. -/
def Completion.completes : Completion → Bool
  | .normal _ => true
  | .throw _ => false

/-- The properties of an element itself: its ID (`none` when it has no id
attribute or an empty one), its tag, its `style.display`, and every other
property it carries (`attrs`).  Every element is an HTML element: it has a
`style` and the `innerText` setter. -/
structure Element where
  id : Option String
  tag : String
  display : String
  attrs : List (String × String)
  deriving DecidableEq, Repr

/-- A child list of the document tree, in tree order: empty, or a text node and
its next siblings, or an element, its child list and its next siblings. -/
inductive Nodes where
  | nil
  | text (data : String) (next : Nodes)
  | element (e : Element) (children : Nodes) (next : Nodes)
  deriving DecidableEq, Repr

/-- The page state: the child list of the document. -/
abbrev Page := Nodes

/-- One move in the tree: to the first child, or to the next sibling. -/
inductive Step where
  | child
  | sibling
  deriving DecidableEq, Repr

/-- An element reference: the moves that lead from the first node of the
document to the element. -/
abbrev Ref := List Step

/-! ## Host operations used by the handler -/

/-- The call `document.getElementById(id)`: a reference to the first element in
tree order whose ID is `id`, or `none` (the script's `null`). -/
def getElementById : Page → String → Option Ref
  | .nil, _ => none
  | .text _ next, id => (getElementById next id).map (Step.sibling :: ·)
  | .element e children next, id =>
    if e.id = some id then some []
    else match getElementById children id with
      | some r => some (Step.child :: r)
      | none => (getElementById next id).map (Step.sibling :: ·)

/-- Write to a property of the element itself, through a reference. -/
def modifyElement (f : Element → Element) : Ref → Page → Page
  | [], .element e children next => .element (f e) children next
  | Step.child :: r, .element e children next => .element e (modifyElement f r children) next
  | Step.sibling :: r, .element e children next => .element e children (modifyElement f r next)
  | Step.sibling :: r, .text data next => .text data (modifyElement f r next)
  | _, doc => doc

/-- Replace the child list of an element, through a reference. -/
def replaceChildren (new : Nodes) : Ref → Page → Page
  | [], .element e _ next => .element e new next
  | Step.child :: r, .element e children next => .element e (replaceChildren new r children) next
  | Step.sibling :: r, .element e children next => .element e children (replaceChildren new r next)
  | Step.sibling :: r, .text data next => .text data (replaceChildren new r next)
  | _, doc => doc

/-- The element a reference leads to, with its child list. -/
def nodeAt : Page → Ref → Option (Element × Nodes)
  | .element e children _, [] => some (e, children)
  | .element _ children _, Step.child :: r => nodeAt children r
  | .element _ _ next, Step.sibling :: r => nodeAt next r
  | .text _ next, Step.sibling :: r => nodeAt next r
  | _, _ => none

/-- Whether `r` leads to a descendant of the element `outer` leads to. -/
def inside : Ref → Ref → Bool
  | [], Step.child :: _ => true
  | s :: outer, t :: r => decide (s = t) && inside outer r
  | _, _ => false

/-- The text content of a child list: the data of its text nodes and of the text
nodes below its elements, concatenated in tree order. -/
def textContent : Nodes → String
  | .nil => ""
  | .text data next => data ++ textContent next
  | .element _ children next => textContent children ++ textContent next

/-- A freshly created `br` element. -/
def br : Element := { id := none, tag := "br", display := "", attrs := [] }

/-- Close the current run of characters: a text node, unless the run is empty. -/
def flushRun (run : List Char) (rest : Nodes) : Nodes :=
  if run = [] then rest else .text (String.mk run) rest

/-- The nodes for the characters still to read, given the run of characters
read since the last line break and whether the last character was a carriage
return (a line feed right after it belongs to the same line break). -/
def fragmentLoop : List Char → List Char → Bool → Nodes
  | [], run, _ => flushRun run .nil
  | c :: cs, run, afterCR =>
    if c = '\n' then
      if afterCR then fragmentLoop cs [] false
      else flushRun run (.element br .nil (fragmentLoop cs [] false))
    else if c = '\r' then flushRun run (.element br .nil (fragmentLoop cs [] true))
    else fragmentLoop cs (run ++ [c]) false

/-- The nodes the `innerText` setter creates for a string: one text node for
each non-empty line and one `br` element for each line break (a line feed, a
carriage return, or a carriage return followed by a line feed). -/
def renderedTextFragment (s : String) : Nodes :=
  fragmentLoop s.data [] false

/-- The assignment `element.style.display = value`. -/
def setDisplay (doc : Page) (ref : Ref) (value : String) : Page :=
  modifyElement (fun e => { e with display := value }) ref doc

/-- The assignment `element.innerText = value`: the child list of the element
becomes the nodes created for the string. -/
def setInnerText (doc : Page) (ref : Ref) (value : String) : Page :=
  replaceChildren (renderedTextFragment value) ref doc

/-- The element a lookup by id refers to, with its child list, if any. -/
def elementById (doc : Page) (id : String) : Option (Element × Nodes) :=
  (getElementById doc id).bind (nodeAt doc)

/-- The display state of the element with the given id, if there is one. -/
def displayOf (doc : Page) (id : String) : Option String :=
  (elementById doc id).map (fun n => n.1.display)

/-- The text of the element with the given id, if there is one: the text content
of its child list. -/
def textOf (doc : Page) (id : String) : Option String :=
  (elementById doc id).map (fun n => textContent n.2)

/-! ## Numbers

A line or column argument is a script Number (a binary64 value) that holds a
non-negative integer; it is represented by that integer. -/

/-- The number of bits of `m` beyond the 53 a Number keeps. -/
def excessBits : Nat → Nat → Nat
  | 0, _ => 0
  | fuel + 1, m => if m < 2 ^ 53 then 0 else excessBits fuel (m / 2) + 1

/-- The Number nearest to the integer `m` (ties to the even significand). -/
def roundToNumber (m : Nat) : Nat :=
  let sh := excessBits m m
  let q := m / 2 ^ sh
  let r := m % 2 ^ sh
  if 2 * r < 2 ^ sh then q * 2 ^ sh
  else if 2 ^ sh < 2 * r then (q + 1) * 2 ^ sh
  else if q % 2 = 0 then q * 2 ^ sh
  else (q + 1) * 2 ^ sh

/-- Whether the integer `n` is the value of a Number. -/
def isNumber (n : Nat) : Bool :=
  roundToNumber n = n && n < 2 ^ 1024

/-- The number of decimal digits of `n` (with fuel). -/
def digitCount : Nat → Nat → Nat
  | 0, _ => 0
  | fuel + 1, n => if n < 10 then 1 else digitCount fuel (n / 10) + 1

/-- The search of the number-to-string rule: the decimal with the fewest
significant digits `k` that rounds to `x`, the nearest to `x` when there are
two, tried for `k`, `k + 1`, ... -/
def shortestFrom (x d : Nat) : Nat → Nat → Nat
  | 0, _ => x
  | fuel + 1, k =>
    let p := 10 ^ (d - k)
    let lo := x / p * p
    let hi := lo + p
    if roundToNumber lo = x then
      if roundToNumber hi = x then
        if x - lo < hi - x then lo
        else if hi - x < x - lo then hi
        else if (x / p) % 2 = 0 then lo else hi
      else lo
    else if roundToNumber hi = x then hi
    else shortestFrom x d fuel (k + 1)

/-- The integer whose digits the script prints for the Number `x`. -/
def shortestDecimal (x : Nat) : Nat :=
  let d := digitCount x x
  if roundToNumber (10 ^ d) = x then 10 ^ d else shortestFrom x d d 1

/-- The decimal digits of `v` without its trailing zeros. -/
def significand (v : Nat) : List Char :=
  ((Nat.toDigits 10 v).reverse.dropWhile (· = '0')).reverse

/-- The string the script gives for a Number holding the non-negative integer
`x`: the digits of the shortest decimal that rounds to `x`, written out in full
below `10 ^ 21` and in exponent form from there on. -/
def numberToString (x : Nat) : String :=
  if x = 0 then "0"
  else
    let v := shortestDecimal x
    if v < 10 ^ 21 then Nat.repr v
    else
      let e := "e+" ++ Nat.repr (digitCount v v - 1)
      match significand v with
      | [] => e
      | [c] => String.mk [c] ++ e
      | c :: cs => String.mk (c :: '.' :: cs) ++ e

/-! ## The handler -/

/-- The template literal of the handler. -/
def errorText (message source : String) (lineno colno : Nat) : String :=
  "Error: " ++ message ++ " at " ++ source ++ ":" ++ numberToString lineno ++ ":"
    ++ numberToString colno

/-- The function assigned to `window.onerror`.  The result is the page after the
call and the call's completion.  The body has no `return` statement, so a call
that runs to its end returns `undefined`; assigning `innerText` on a failed
lookup (`null`) throws a `TypeError`, after the display state was written. -/
def onerror (message source : String) (lineno colno : Nat) (error : JSValue)
    (doc : Page) : Page × Completion :=
  let _ := error
  match getElementById doc "error-display" with
  | none => (doc, .normal .undefined)
  | some errorElement =>
    let doc₁ := setDisplay doc errorElement "flex"
    match getElementById doc₁ "error-display-text" with
    | none => (doc₁, .throw .typeError)
    | some errorTextElement =>
      (setInnerText doc₁ errorTextElement (errorText message source lineno colno),
        .normal .undefined)

/-! ## Notions used to state the contract -/

/-- A character that does not break a line: neither a line feed nor a carriage
return. -/
@[reducible] def plain (c : Char) : Prop := c ≠ '\n' ∧ c ≠ '\r'

/-- Whether the banner the handler finds lies outside the text surface it finds
(true as well when one of the two is missing). -/
def bannerOutsideText (doc : Page) : Bool :=
  match getElementById doc "error-display", getElementById doc "error-display-text" with
  | some i, some j => !inside j i
  | _, _ => true

/-- The page without the two things the handler writes: the display state of the
element at `banner` is blanked and the child list of the element at `surface`
is emptied.  Two pages with the same result differ at most there. -/
def withoutWrites (banner surface : Option Ref) (doc : Page) : Page :=
  let doc₁ := match banner with
    | some i => setDisplay doc i ""
    | none => doc
  match surface with
  | some j => replaceChildren .nil j doc₁
  | none => doc₁

/-! ## Sample pages -/

/-- An element without other properties. -/
def el (id : String) (display : String) : Element :=
  { id := some id, tag := "div", display := display, attrs := [] }

/-- A page with a header, a hidden banner, its text surface and a footer, side
by side. -/
def samplePage : Page :=
  .element { id := some "header", tag := "div", display := "block", attrs := [("class", "top")] }
    (.text "Demo" .nil)
  (.element (el "error-display" "none") .nil
  (.element (el "error-display-text" "") (.text "stale" .nil)
  (.element (el "footer" "") (.text "bye" .nil) .nil)))

/-- The layout the banner is written for: the text surface lies inside the
hidden banner and holds an element of its own. -/
def nestedPage : Page :=
  .element (el "error-display" "none")
    (.element (el "error-display-text" "")
      (.element (el "inner" "") (.text "stale" .nil) .nil) .nil)
  (.element (el "footer" "") (.text "bye" .nil) .nil)

/-- A page on which the banner lies inside the text surface. -/
def invertedPage : Page :=
  .element (el "error-display-text" "")
    (.element (el "error-display" "none") (.text "x" .nil) .nil) .nil

/-- The same page followed by a second hidden banner. -/
def invertedPageTwoBanners : Page :=
  .element (el "error-display-text" "")
    (.element (el "error-display" "none") (.text "x" .nil) .nil)
  (.element (el "error-display" "none") (.text "y" .nil) .nil)

/-- A page without the banner; the text surface is there. -/
def pageWithoutBanner : Page :=
  .element (el "header" "block") (.text "Demo" .nil)
  (.element (el "error-display-text" "") (.text "stale" .nil) .nil)

/-- A page with the banner but without its text surface. -/
def pageWithoutText : Page :=
  .element (el "header" "block") (.text "Demo" .nil)
  (.element (el "error-display" "none") .nil .nil)

/-! ## Lemmas on the host operations -/

theorem getElementById_modifyElement (f : Element → Element) (hf : ∀ e, (f e).id = e.id)
    (r : Ref) (doc : Page) (id : String) :
    getElementById (modifyElement f r doc) id = getElementById doc id := by
  induction doc generalizing r with
  | nil => rcases r with _ | ⟨s, r⟩ <;> [rfl; (cases s <;> rfl)]
  | text data next ih =>
    rcases r with _ | ⟨s, r⟩
    · rfl
    · cases s
      · rfl
      · simp [modifyElement, getElementById, ih]
  | element e children next ihc ihn =>
    rcases r with _ | ⟨s, r⟩
    · simp [modifyElement, getElementById, hf]
    · cases s
      · simp [modifyElement, getElementById, ihc]
      · simp [modifyElement, getElementById, ihn]

theorem getElementById_replaceChildren_none {new : Nodes} {id : String}
    (hnew : getElementById new id = none) (j : Ref) (doc : Page)
    (h : getElementById doc id = none) :
    getElementById (replaceChildren new j doc) id = none := by
  induction doc generalizing j with
  | nil => rcases j with _ | ⟨s, j⟩ <;> [exact h; (cases s <;> exact h)]
  | text data next ih =>
    rcases j with _ | ⟨s, j⟩
    · exact h
    · cases s
      · exact h
      · simp only [getElementById, Option.map_eq_none'] at h
        simp [replaceChildren, getElementById, ih j h]
  | element e children next ihc ihn =>
    unfold getElementById at h
    split at h
    · cases h
    · rename_i hid
      cases hc : getElementById children id with
      | some p => simp [hc] at h
      | none =>
        simp only [hc, Option.map_eq_none'] at h
        rcases j with _ | ⟨s, j⟩
        · simp [replaceChildren, getElementById, hid, hnew, h]
        · cases s
          · simp [replaceChildren, getElementById, hid, ihc j hc, h]
          · simp [replaceChildren, getElementById, hid, hc, ihn j h]

theorem getElementById_replaceChildren {new : Nodes} {id : String}
    (hnew : getElementById new id = none) (j : Ref) (doc : Page) (i : Ref)
    (h : getElementById doc id = some i) (hout : inside j i = false) :
    getElementById (replaceChildren new j doc) id = some i := by
  induction doc generalizing i j with
  | nil => simp [getElementById] at h
  | text data next ih =>
    simp only [getElementById, Option.map_eq_some'] at h
    obtain ⟨p, hp, rfl⟩ := h
    rcases j with _ | ⟨s, j⟩
    · simp [replaceChildren, getElementById, hp]
    · cases s
      · simp [replaceChildren, getElementById, hp]
      · have hout' : inside j p = false := by simpa [inside] using hout
        simp [replaceChildren, getElementById, ih j p hp hout']
  | element e children next ihc ihn =>
    unfold getElementById at h
    split at h
    · rename_i hid
      cases h
      rcases j with _ | ⟨s, j⟩
      · simp [replaceChildren, getElementById, hid]
      · cases s <;> simp [replaceChildren, getElementById, hid]
    · rename_i hid
      cases hc : getElementById children id with
      | some p =>
        simp only [hc, Option.some.injEq] at h
        subst h
        rcases j with _ | ⟨s, j⟩
        · simp [inside] at hout
        · cases s
          · have hout' : inside j p = false := by simpa [inside] using hout
            simp [replaceChildren, getElementById, hid, ihc j p hc hout']
          · simp [replaceChildren, getElementById, hid, hc]
      | none =>
        simp only [hc, Option.map_eq_some'] at h
        obtain ⟨p, hp, rfl⟩ := h
        rcases j with _ | ⟨s, j⟩
        · simp [replaceChildren, getElementById, hid, hnew, hp]
        · cases s
          · simp [replaceChildren, getElementById, hid,
              getElementById_replaceChildren_none hnew j children hc, hp]
          · have hout' : inside j p = false := by simpa [inside] using hout
            simp [replaceChildren, getElementById, hid, hc, ihn j p hp hout']

theorem nodeAt_of_getElementById {doc : Page} {id : String} {r : Ref}
    (h : getElementById doc id = some r) :
    ∃ e cs, nodeAt doc r = some (e, cs) ∧ e.id = some id := by
  induction doc generalizing r with
  | nil => simp [getElementById] at h
  | text data next ih =>
    simp only [getElementById, Option.map_eq_some'] at h
    obtain ⟨p, hp, rfl⟩ := h
    simpa [nodeAt] using ih hp
  | element e children next ihc ihn =>
    unfold getElementById at h
    split at h
    · rename_i hid
      cases h
      exact ⟨e, children, rfl, hid⟩
    · cases hc : getElementById children id with
      | some p =>
        simp only [hc, Option.some.injEq] at h
        subst h
        simpa [nodeAt] using ihc hc
      | none =>
        simp only [hc, Option.map_eq_some'] at h
        obtain ⟨p, hp, rfl⟩ := h
        simpa [nodeAt] using ihn hp

/-- Two lookups by different ids never give the same reference. -/
theorem getElementById_ne {doc : Page} {id₁ id₂ : String} {i j : Ref} (hid : id₁ ≠ id₂)
    (h₁ : getElementById doc id₁ = some i) (h₂ : getElementById doc id₂ = some j) : i ≠ j := by
  intro hij
  subst hij
  obtain ⟨e₁, c₁, he₁, hid₁⟩ := nodeAt_of_getElementById h₁
  obtain ⟨e₂, c₂, he₂, hid₂⟩ := nodeAt_of_getElementById h₂
  rw [he₁] at he₂
  cases he₂
  rw [hid₁] at hid₂
  exact hid (Option.some.inj hid₂)

theorem nodeAt_modifyElement_self (f : Element → Element) {doc : Page} {r : Ref}
    {e : Element} {cs : Nodes} (h : nodeAt doc r = some (e, cs)) :
    nodeAt (modifyElement f r doc) r = some (f e, cs) := by
  induction doc generalizing r with
  | nil => cases r <;> simp [nodeAt] at h
  | text data next ih =>
    rcases r with _ | ⟨s, r⟩
    · simp [nodeAt] at h
    · cases s
      · simp [nodeAt] at h
      · simpa [nodeAt, modifyElement] using ih (by simpa [nodeAt] using h)
  | element e' children next ihc ihn =>
    rcases r with _ | ⟨s, r⟩
    · simp only [nodeAt, Option.some.injEq, Prod.mk.injEq] at h
      obtain ⟨rfl, rfl⟩ := h
      rfl
    · cases s
      · simpa [nodeAt, modifyElement] using ihc (by simpa [nodeAt] using h)
      · simpa [nodeAt, modifyElement] using ihn (by simpa [nodeAt] using h)

theorem nodeAt_replaceChildren_self (new : Nodes) {doc : Page} {r : Ref}
    {e : Element} {cs : Nodes} (h : nodeAt doc r = some (e, cs)) :
    nodeAt (replaceChildren new r doc) r = some (e, new) := by
  induction doc generalizing r with
  | nil => cases r <;> simp [nodeAt] at h
  | text data next ih =>
    rcases r with _ | ⟨s, r⟩
    · simp [nodeAt] at h
    · cases s
      · simp [nodeAt] at h
      · simpa [nodeAt, replaceChildren] using ih (by simpa [nodeAt] using h)
  | element e' children next ihc ihn =>
    rcases r with _ | ⟨s, r⟩
    · simp only [nodeAt, Option.some.injEq, Prod.mk.injEq] at h
      obtain ⟨rfl, rfl⟩ := h
      rfl
    · cases s
      · simpa [nodeAt, replaceChildren] using ihc (by simpa [nodeAt] using h)
      · simpa [nodeAt, replaceChildren] using ihn (by simpa [nodeAt] using h)

/-- Replacing the child list of `j` leaves the element at `i` as it is, unless
`i` lies inside `j`. -/
theorem nodeAt_replaceChildren_fst (new : Nodes) (j i : Ref) (doc : Page)
    (hout : inside j i = false) :
    (nodeAt (replaceChildren new j doc) i).map Prod.fst = (nodeAt doc i).map Prod.fst := by
  induction doc generalizing i j with
  | nil => rcases j with _ | ⟨s, j⟩ <;> [rfl; (cases s <;> rfl)]
  | text data next ih =>
    rcases j with _ | ⟨s, j⟩
    · rfl
    · cases s
      · rfl
      · rcases i with _ | ⟨t, i⟩
        · rfl
        · cases t
          · rfl
          · simpa [nodeAt, replaceChildren] using ih j i (by simpa [inside] using hout)
  | element e children next ihc ihn =>
    rcases j with _ | ⟨s, j⟩
    · rcases i with _ | ⟨t, i⟩
      · rfl
      · cases t
        · simp [inside] at hout
        · rfl
    · cases s
      · rcases i with _ | ⟨t, i⟩
        · rfl
        · cases t
          · simpa [nodeAt, replaceChildren] using ihc j i (by simpa [inside] using hout)
          · rfl
      · rcases i with _ | ⟨t, i⟩
        · rfl
        · cases t
          · rfl
          · simpa [nodeAt, replaceChildren] using ihn j i (by simpa [inside] using hout)

/-- A write to an element itself changes no element at another place. -/
theorem nodeAt_modifyElement_fst (f : Element → Element) (i j : Ref) (doc : Page)
    (hne : i ≠ j) :
    (nodeAt (modifyElement f i doc) j).map Prod.fst = (nodeAt doc j).map Prod.fst := by
  induction doc generalizing i j with
  | nil => rcases i with _ | ⟨s, i⟩ <;> [rfl; (cases s <;> rfl)]
  | text data next ih =>
    rcases i with _ | ⟨s, i⟩
    · rfl
    · cases s
      · rfl
      · rcases j with _ | ⟨t, j⟩
        · rfl
        · cases t
          · rfl
          · simpa [nodeAt, modifyElement] using ih i j (by simpa using hne)
  | element e children next ihc ihn =>
    rcases i with _ | ⟨s, i⟩
    · rcases j with _ | ⟨t, j⟩
      · exact absurd rfl hne
      · cases t <;> rfl
    · cases s
      · rcases j with _ | ⟨t, j⟩
        · rfl
        · cases t
          · simpa [nodeAt, modifyElement] using ihc i j (by simpa using hne)
          · rfl
      · rcases j with _ | ⟨t, j⟩
        · rfl
        · cases t
          · rfl
          · simpa [nodeAt, modifyElement] using ihn i j (by simpa using hne)

theorem modifyElement_modifyElement (f g : Element → Element) (r : Ref) (doc : Page) :
    modifyElement f r (modifyElement g r doc) = modifyElement (fun e => f (g e)) r doc := by
  induction doc generalizing r with
  | nil => rcases r with _ | ⟨s, r⟩ <;> [rfl; (cases s <;> rfl)]
  | text data next ih =>
    rcases r with _ | ⟨s, r⟩
    · rfl
    · cases s
      · rfl
      · simp [modifyElement, ih]
  | element e children next ihc ihn =>
    rcases r with _ | ⟨s, r⟩
    · rfl
    · cases s
      · simp [modifyElement, ihc]
      · simp [modifyElement, ihn]

theorem replaceChildren_replaceChildren (a b : Nodes) (r : Ref) (doc : Page) :
    replaceChildren a r (replaceChildren b r doc) = replaceChildren a r doc := by
  induction doc generalizing r with
  | nil => rcases r with _ | ⟨s, r⟩ <;> [rfl; (cases s <;> rfl)]
  | text data next ih =>
    rcases r with _ | ⟨s, r⟩
    · rfl
    · cases s
      · rfl
      · simp [replaceChildren, ih]
  | element e children next ihc ihn =>
    rcases r with _ | ⟨s, r⟩
    · rfl
    · cases s
      · simp [replaceChildren, ihc]
      · simp [replaceChildren, ihn]

/-- A write to an element itself and the replacement of a child list commute,
unless the element lies inside the replaced child list. -/
theorem modifyElement_replaceChildren (f : Element → Element) (new : Nodes) (i j : Ref)
    (doc : Page) (hout : inside j i = false) :
    modifyElement f i (replaceChildren new j doc) =
      replaceChildren new j (modifyElement f i doc) := by
  induction doc generalizing i j with
  | nil =>
    rcases i with _ | ⟨s, i⟩ <;> rcases j with _ | ⟨t, j⟩ <;>
      first | rfl | (cases s <;> rfl) | (cases t <;> rfl) | (cases s <;> cases t <;> rfl)
  | text data next ih =>
    rcases i with _ | ⟨s, i⟩
    · rcases j with _ | ⟨t, j⟩
      · rfl
      · cases t <;> rfl
    · rcases j with _ | ⟨t, j⟩
      · cases s <;> rfl
      · cases s <;> cases t <;> try rfl
        simp [modifyElement, replaceChildren, ih i j (by simpa [inside] using hout)]
  | element e children next ihc ihn =>
    rcases i with _ | ⟨s, i⟩
    · rcases j with _ | ⟨t, j⟩
      · rfl
      · cases t <;> rfl
    · rcases j with _ | ⟨t, j⟩
      · cases s
        · simp [inside] at hout
        · rfl
      · cases s <;> cases t <;> try rfl
        · simp [modifyElement, replaceChildren, ihc i j (by simpa [inside] using hout)]
        · simp [modifyElement, replaceChildren, ihn i j (by simpa [inside] using hout)]

/-- A write to an element inside a child list is lost when the child list is
replaced. -/
theorem replaceChildren_modifyElement_inside (f : Element → Element) (new : Nodes)
    (i j : Ref) (doc : Page) (hin : inside j i = true) :
    replaceChildren new j (modifyElement f i doc) = replaceChildren new j doc := by
  induction doc generalizing i j with
  | nil =>
    rcases i with _ | ⟨s, i⟩ <;> rcases j with _ | ⟨t, j⟩ <;>
      first | rfl | (cases s <;> rfl)
  | text data next ih =>
    rcases i with _ | ⟨s, i⟩
    · rcases j with _ | ⟨t, j⟩
      · rfl
      · cases t <;> rfl
    · rcases j with _ | ⟨t, j⟩
      · cases s
        · rfl
        · simp [inside] at hin
      · cases s <;> cases t
        · rfl
        · rfl
        · simp [inside] at hin
        · simp [modifyElement, replaceChildren, ih i j (by simpa [inside] using hin)]
  | element e children next ihc ihn =>
    rcases i with _ | ⟨s, i⟩
    · rcases j with _ | ⟨t, j⟩
      · simp [inside] at hin
      · simp [inside] at hin
    · rcases j with _ | ⟨t, j⟩
      · cases s
        · rfl
        · simp [inside] at hin
      · cases s <;> cases t
        · simp [modifyElement, replaceChildren, ihc i j (by simpa [inside] using hin)]
        · simp [inside] at hin
        · simp [inside] at hin
        · simp [modifyElement, replaceChildren, ihn i j (by simpa [inside] using hin)]

theorem getElementById_setDisplay (doc : Page) (ref : Ref) (value id : String) :
    getElementById (setDisplay doc ref value) id = getElementById doc id := by
  unfold setDisplay
  apply getElementById_modifyElement
  intro e
  rfl

/-! ### The nodes created for a string -/

theorem getElementById_flushRun (run : List Char) (rest : Nodes) (id : String) :
    getElementById (flushRun run rest) id = none ↔ getElementById rest id = none := by
  unfold flushRun
  split <;> simp [getElementById]

/-- The nodes created by the `innerText` setter carry no ID. -/
theorem getElementById_fragmentLoop (cs run : List Char) (afterCR : Bool) (id : String) :
    getElementById (fragmentLoop cs run afterCR) id = none := by
  induction cs generalizing run afterCR with
  | nil => simp [fragmentLoop, getElementById_flushRun, getElementById]
  | cons c cs ih =>
    unfold fragmentLoop
    split
    · split
      · exact ih _ _
      · simp [getElementById_flushRun, getElementById, br, ih]
    · split
      · simp [getElementById_flushRun, getElementById, br, ih]
      · exact ih _ _

theorem getElementById_renderedTextFragment (s id : String) :
    getElementById (renderedTextFragment s) id = none :=
  getElementById_fragmentLoop _ _ _ _

theorem fragmentLoop_plain (cs run : List Char) (afterCR : Bool)
    (h : ∀ c ∈ cs, plain c) :
    fragmentLoop cs run afterCR = flushRun (run ++ cs) .nil := by
  induction cs generalizing run afterCR with
  | nil => simp [fragmentLoop]
  | cons c cs ih =>
    have hc := h c (List.mem_cons_self _ _)
    unfold fragmentLoop
    rw [if_neg hc.1, if_neg hc.2, ih _ _ (fun d hd => h d (List.mem_cons_of_mem _ hd))]
    simp

/-- The text content of the nodes created for a string without line breaks is
the string. -/
theorem textContent_renderedTextFragment (s : String) (h : ∀ c ∈ s.data, plain c) :
    textContent (renderedTextFragment s) = s := by
  unfold renderedTextFragment
  rw [fragmentLoop_plain _ _ _ h]
  unfold flushRun
  split
  · rename_i hnil
    simp only [List.nil_append] at hnil
    simp only [textContent]
    exact String.ext hnil.symm
  · simp only [List.nil_append, textContent]
    exact String.ext (by simp)

/-! ### Numbers below `2 ^ 53` -/

theorem excessBits_of_lt (fuel m : Nat) (h : m < 2 ^ 53) : excessBits fuel m = 0 := by
  cases fuel with
  | zero => rfl
  | succ n => simp only [excessBits, if_pos h]

/-- Every integer below `2 ^ 53` is a Number. -/
theorem roundToNumber_of_lt (m : Nat) (h : m < 2 ^ 53) : roundToNumber m = m := by
  simp [roundToNumber, excessBits_of_lt m m h, Nat.mod_one]

theorem excessBits_quotient (fuel m : Nat) (h : 2 ^ 53 ≤ m) :
    2 ^ 52 ≤ m / 2 ^ excessBits fuel m := by
  induction fuel generalizing m with
  | zero =>
    simp only [excessBits, pow_zero, Nat.div_one]
    omega
  | succ n ih =>
    have hnot : ¬ m < 2 ^ 53 := by omega
    simp only [excessBits, if_neg hnot]
    rw [show 2 ^ (excessBits n (m / 2) + 1) = 2 * 2 ^ excessBits n (m / 2) from by
      rw [pow_succ, Nat.mul_comm], ← Nat.div_div_eq_div_mul]
    by_cases h2 : m / 2 < 2 ^ 53
    · rw [excessBits_of_lt n _ h2]
      simp only [pow_zero, Nat.div_one]
      omega
    · exact ih (m / 2) (by omega)

theorem excessBits_pos (m : Nat) (h : 2 ^ 53 ≤ m) : 0 < excessBits m m := by
  obtain ⟨n, rfl⟩ : ∃ n, m = n + 1 := ⟨m - 1, by omega⟩
  have hnot : ¬ n + 1 < 2 ^ 53 := by omega
  simp only [excessBits, if_neg hnot]
  exact Nat.succ_pos _

/-- No integer from `2 ^ 53` on rounds to a Number below `2 ^ 53`. -/
theorem le_roundToNumber (m : Nat) (h : 2 ^ 53 ≤ m) : 2 ^ 53 ≤ roundToNumber m := by
  have hq := excessBits_quotient m m h
  have hpos := excessBits_pos m h
  have hsh : 2 ≤ 2 ^ excessBits m m := by
    calc 2 = 2 ^ 1 := by norm_num
      _ ≤ 2 ^ excessBits m m := Nat.pow_le_pow_right (by norm_num) hpos
  have hlow : 2 ^ 53 ≤ m / 2 ^ excessBits m m * 2 ^ excessBits m m := by
    calc 2 ^ 53 = 2 ^ 52 * 2 := by norm_num
      _ ≤ m / 2 ^ excessBits m m * 2 ^ excessBits m m := Nat.mul_le_mul hq hsh
  have hhigh : m / 2 ^ excessBits m m * 2 ^ excessBits m m ≤
      (m / 2 ^ excessBits m m + 1) * 2 ^ excessBits m m :=
    Nat.mul_le_mul_right _ (Nat.le_succ _)
  unfold roundToNumber
  simp only
  split
  · exact hlow
  · split
    · exact le_trans hlow hhigh
    · split
      · exact hlow
      · exact le_trans hlow hhigh

theorem eq_of_roundToNumber_eq {v x : Nat} (hx : x < 2 ^ 53) (h : roundToNumber v = x) :
    v = x := by
  by_cases hv : v < 2 ^ 53
  · rw [roundToNumber_of_lt v hv] at h
    exact h
  · have := le_roundToNumber v (by omega)
    omega

theorem shortestFrom_rounds (x d fuel k : Nat) :
    shortestFrom x d fuel k = x ∨ roundToNumber (shortestFrom x d fuel k) = x := by
  induction fuel generalizing k with
  | zero => exact Or.inl rfl
  | succ n ih =>
    unfold shortestFrom
    simp only
    split
    · rename_i hlo
      split
      · rename_i hhi
        split
        · exact Or.inr hlo
        · split
          · exact Or.inr hhi
          · split
            · exact Or.inr hlo
            · exact Or.inr hhi
      · exact Or.inr hlo
    · split
      · rename_i hhi
        exact Or.inr hhi
      · exact ih (k + 1)

theorem shortestDecimal_of_lt (x : Nat) (hx : x < 2 ^ 53) : shortestDecimal x = x := by
  unfold shortestDecimal
  simp only
  split
  · rename_i h
    exact eq_of_roundToNumber_eq hx h
  · rcases shortestFrom_rounds x (digitCount x x) (digitCount x x) 1 with h | h
    · exact h
    · exact eq_of_roundToNumber_eq hx h

/-- A Number holding an integer below `2 ^ 53` is printed in decimal. -/
theorem numberToString_of_lt (x : Nat) (hx : x < 2 ^ 53) : numberToString x = Nat.repr x := by
  unfold numberToString
  split
  · rename_i h0
    subst h0
    decide
  · simp only [shortestDecimal_of_lt x hx]
    rw [if_pos]
    have : (2 : Nat) ^ 53 < 10 ^ 21 := by norm_num
    omega

/-! ### Digits do not break lines -/

theorem plain_digitChar (d : Nat) : plain (Nat.digitChar d) := by
  match d with
  | 0 | 1 | 2 | 3 | 4 | 5 | 6 | 7 | 8 | 9 | 10 | 11 | 12 | 13 | 14 | 15 => decide
  | n + 16 =>
    have h : Nat.digitChar (n + 16) = '*' := by simp [Nat.digitChar]
    rw [h]
    decide

theorem plain_toDigitsCore (fuel n : Nat) (acc : List Char) (hacc : ∀ c ∈ acc, plain c) :
    ∀ c ∈ Nat.toDigitsCore 10 fuel n acc, plain c := by
  induction fuel generalizing n acc with
  | zero => simpa [Nat.toDigitsCore] using hacc
  | succ k ih =>
    unfold Nat.toDigitsCore
    simp only
    split
    · intro c hc
      rcases List.mem_cons.mp hc with rfl | hc
      · exact plain_digitChar _
      · exact hacc c hc
    · apply ih
      intro c hc
      rcases List.mem_cons.mp hc with rfl | hc
      · exact plain_digitChar _
      · exact hacc c hc

theorem plain_repr (n : Nat) : ∀ c ∈ (Nat.repr n).data, plain c := by
  show ∀ c ∈ Nat.toDigitsCore 10 (n + 1) n [], plain c
  exact plain_toDigitsCore _ _ [] (by simp)

/-- The handler's string has no line break when the message and the source have
none and line and column are below `2 ^ 53`; it is then the decimal form. -/
theorem errorText_of_lt (message source : String) (lineno colno : Nat)
    (hl : lineno < 2 ^ 53) (hc : colno < 2 ^ 53) :
    errorText message source lineno colno =
      "Error: " ++ message ++ " at " ++ source ++ ":" ++ Nat.repr lineno ++ ":"
        ++ Nat.repr colno := by
  unfold errorText
  rw [numberToString_of_lt lineno hl, numberToString_of_lt colno hc]

theorem plain_errorText (message source : String) (lineno colno : Nat)
    (hm : ∀ c ∈ message.data, plain c) (hs : ∀ c ∈ source.data, plain c) :
    ∀ c ∈ ("Error: " ++ message ++ " at " ++ source ++ ":" ++ Nat.repr lineno ++ ":"
        ++ Nat.repr colno).data, plain c := by
  intro c hc
  simp only [String.data_append, List.mem_append] at hc
  rcases hc with (((((((h | h) | h) | h) | h) | h) | h) | h)
  · revert c
    decide
  · exact hm c h
  · revert c
    decide
  · exact hs c h
  · revert c
    decide
  · exact plain_repr _ c h
  · revert c
    decide
  · exact plain_repr _ c h

/-! ### The handler, case by case -/

theorem inside_self (r : Ref) : inside r r = false := by
  induction r with
  | nil => rfl
  | cons s r ih => simp [inside, ih]

/-- The handler's result, case by case on the two lookups in the page it is
called on. -/
theorem onerror_eq (message source : String) (lineno colno : Nat) (error : JSValue)
    (doc : Page) :
    onerror message source lineno colno error doc =
      match getElementById doc "error-display", getElementById doc "error-display-text" with
      | none, _ => (doc, .normal .undefined)
      | some i, none => (setDisplay doc i "flex", .throw .typeError)
      | some i, some j =>
        (setInnerText (setDisplay doc i "flex") j (errorText message source lineno colno),
          .normal .undefined) := by
  unfold onerror
  cases h1 : getElementById doc "error-display" with
  | none => rfl
  | some i =>
    simp only [getElementById_setDisplay]
    cases h2 : getElementById doc "error-display-text" <;> rfl

/-- On the throwing path the banner is shown. -/
theorem displayOf_setDisplay {doc : Page} {id : String} {i : Ref} (value : String)
    (hi : getElementById doc id = some i) :
    displayOf (setDisplay doc i value) id = some value := by
  obtain ⟨e, cs, he, _⟩ := nodeAt_of_getElementById hi
  simp only [displayOf, elementById, getElementById_setDisplay, hi, Option.some_bind]
  unfold setDisplay
  rw [nodeAt_modifyElement_self _ he]
  rfl

/-- After the text was written, the banner is shown if it lies outside the text
surface. -/
theorem displayOf_setInnerText {doc : Page} {id text : String} {i j : Ref} (value : String)
    (hi : getElementById doc id = some i) (hout : inside j i = false) :
    displayOf (setInnerText (setDisplay doc i value) j text) id = some value := by
  obtain ⟨e, cs, he, _⟩ := nodeAt_of_getElementById hi
  have hfind : getElementById (setInnerText (setDisplay doc i value) j text) id = some i := by
    unfold setInnerText
    exact getElementById_replaceChildren (getElementById_renderedTextFragment _ _) j _ i
      (by rw [getElementById_setDisplay]; exact hi) hout
  have hnode : (nodeAt (setInnerText (setDisplay doc i value) j text) i).map Prod.fst =
      some { e with display := value } := by
    unfold setInnerText
    rw [nodeAt_replaceChildren_fst _ j i _ hout]
    unfold setDisplay
    rw [nodeAt_modifyElement_self _ he]
    rfl
  simp only [displayOf, elementById, hfind, Option.some_bind]
  cases hn : nodeAt (setInnerText (setDisplay doc i value) j text) i with
  | none => simp [hn] at hnode
  | some n =>
    simp only [hn, Option.map_some', Option.some.injEq] at hnode
    simp only [Option.map_some', hnode]

/-- After the text was written, the text surface holds the nodes created for the
string. -/
theorem textOf_setInnerText {doc : Page} {id : String} {j : Ref} (text : String)
    (hj : getElementById doc id = some j) :
    textOf (setInnerText doc j text) id = some (textContent (renderedTextFragment text)) := by
  obtain ⟨e, cs, he, _⟩ := nodeAt_of_getElementById hj
  have hfind : getElementById (setInnerText doc j text) id = some j := by
    unfold setInnerText
    exact getElementById_replaceChildren (getElementById_renderedTextFragment _ _) j _ j hj
      (inside_self j)
  simp only [textOf, elementById, hfind, Option.some_bind]
  unfold setInnerText
  rw [nodeAt_replaceChildren_self _ he]
  rfl

/-- A second identical pair of writes changes nothing when the banner lies
outside the text surface. -/
theorem writes_again (doc : Page) (i j : Ref) (text : String) (hout : inside j i = false) :
    setInnerText (setDisplay (setInnerText (setDisplay doc i "flex") j text) i "flex") j text =
      setInnerText (setDisplay doc i "flex") j text := by
  unfold setInnerText setDisplay
  rw [modifyElement_replaceChildren _ _ i j _ hout, modifyElement_modifyElement,
    replaceChildren_replaceChildren]

/-! ## The handler's contract -/

/-- C1 (as amended): when both the `error-display` and the `error-display-text`
element exist, the message and the source contain no line break and line and
column are integers below `2 ^ 53`, the text content of `error-display-text`
after the call is exactly
`"Error: " ++ message ++ " at " ++ source ++ ":" ++ decimal lineno ++ ":" ++ decimal colno`,
whatever it was before; empty texts and zero numbers are not special-cased. -/
theorem onerror_text (message source : String) (lineno colno : Nat) (error : JSValue)
    (doc : Page)
    (hDisplay : getElementById doc "error-display" ≠ none)
    (hText : getElementById doc "error-display-text" ≠ none)
    (hMessage : ∀ c ∈ message.data, plain c) (hSource : ∀ c ∈ source.data, plain c)
    (hLine : lineno < 2 ^ 53) (hColumn : colno < 2 ^ 53) :
    textOf (onerror message source lineno colno error doc).1 "error-display-text" =
        some ("Error: " ++ message ++ " at " ++ source ++ ":" ++ Nat.repr lineno ++ ":"
          ++ Nat.repr colno)
      ∧ errorText "" "" 0 0 = "Error:  at :0:0"
      ∧ errorText "TypeError: x is not a function" "app.js" 42 7 =
          "Error: TypeError: x is not a function at app.js:42:7" := by
  refine ⟨?_, by decide, by decide⟩
  obtain ⟨i, hi⟩ := Option.ne_none_iff_exists'.mp hDisplay
  obtain ⟨j, hj⟩ := Option.ne_none_iff_exists'.mp hText
  rw [onerror_eq, hi, hj]
  simp only
  rw [textOf_setInnerText _ (by rw [getElementById_setDisplay]; exact hj),
    errorText_of_lt message source lineno colno hLine hColumn,
    textContent_renderedTextFragment _
      (plain_errorText message source lineno colno hMessage hSource)]

/-- Witness of C1 on the sample page and on the nested layout, for both
scenarios of the specification. -/
theorem onerror_text_witness :
    textOf (onerror "" "" 0 0 .undefined samplePage).1 "error-display-text" =
        some "Error:  at :0:0"
      ∧ textOf (onerror "TypeError: x is not a function" "app.js" 42 7 (.object 1)
          nestedPage).1 "error-display-text" =
        some "Error: TypeError: x is not a function at app.js:42:7" :=
  ⟨(onerror_text "" "" 0 0 .undefined samplePage (by decide) (by decide) (by decide)
      (by decide) (by decide) (by decide)).1,
   (onerror_text "TypeError: x is not a function" "app.js" 42 7 (.object 1) nestedPage
      (by decide) (by decide) (by decide) (by decide) (by decide) (by decide)).1⟩

/-- C1 as stated fails.  The integer `10 ^ 21` is a Number, and with it as line
the text written holds `1e+21`, not the decimal form; and a line feed in the
message becomes a `br` element, so the text content lacks it. -/
theorem onerror_text_counterexample :
    isNumber (10 ^ 21) = true
      ∧ getElementById samplePage "error-display" ≠ none
      ∧ getElementById samplePage "error-display-text" ≠ none
      ∧ textOf (onerror "boom" "app.js" (10 ^ 21) 0 .undefined samplePage).1
          "error-display-text" = some "Error: boom at app.js:1e+21:0"
      ∧ textOf (onerror "boom" "app.js" (10 ^ 21) 0 .undefined samplePage).1
          "error-display-text" ≠
            some ("Error: " ++ "boom" ++ " at " ++ "app.js" ++ ":" ++ Nat.repr (10 ^ 21) ++ ":"
              ++ Nat.repr 0)
      ∧ textOf (onerror "a\nb" "app.js" 1 1 .undefined samplePage).1
          "error-display-text" = some "Error: ab at app.js:1:1"
      ∧ textOf (onerror "a\nb" "app.js" 1 1 .undefined samplePage).1
          "error-display-text" ≠
            some ("Error: " ++ "a\nb" ++ " at " ++ "app.js" ++ ":" ++ Nat.repr 1 ++ ":"
              ++ Nat.repr 1) := by
  refine ⟨?_, by decide, by decide, by decide, by decide, by decide, by decide⟩
  have hBound : (10 : Nat) ^ 21 < 2 ^ 1024 := by norm_num
  have hRound : roundToNumber (10 ^ 21) = 10 ^ 21 := by decide
  rw [isNumber, Bool.and_eq_true]
  exact ⟨decide_eq_true hRound, decide_eq_true hBound⟩

/-- C2: when no element has id `error-display`, the call returns and the page
afterwards is the page before; an existing `error-display-text` keeps its text. -/
theorem onerror_absent_noop (message source : String) (lineno colno : Nat) (error : JSValue)
    (doc : Page) (hAbsent : getElementById doc "error-display" = none) :
    (onerror message source lineno colno error doc).2.completes = true
      ∧ (onerror message source lineno colno error doc).1 = doc
      ∧ textOf (onerror message source lineno colno error doc).1 "error-display-text" =
          textOf doc "error-display-text" := by
  rw [onerror_eq, hAbsent]
  exact ⟨rfl, rfl, rfl⟩

/-- Witness of C2 on a page that has the text surface but not the banner. -/
theorem onerror_absent_noop_witness :
    (onerror "boom" "app.js" 3 9 .null pageWithoutBanner).2.completes = true
      ∧ (onerror "boom" "app.js" 3 9 .null pageWithoutBanner).1 = pageWithoutBanner
      ∧ textOf (onerror "boom" "app.js" 3 9 .null pageWithoutBanner).1 "error-display-text" =
          textOf pageWithoutBanner "error-display-text" :=
  onerror_absent_noop "boom" "app.js" 3 9 .null pageWithoutBanner (by decide)

/-- C3 (the code at the failing input): on a page with the banner but without the
text surface the call does not degrade to a no-op; it throws a `TypeError`, and
the page afterwards has the banner revealed. -/
theorem onerror_missing_text_throws_at_sample :
    onerror "boom" "app.js" 3 9 .undefined pageWithoutText =
      (.element (el "header" "block") (.text "Demo" .nil)
        (.element (el "error-display" "flex") .nil .nil),
       .throw .typeError) := by
  decide

/-- C4 (as amended): when both elements exist and the banner does not lie inside
the text surface, the call completes and the display state of `error-display`
after it is `"flex"`, whatever it was before. -/
theorem onerror_shows (message source : String) (lineno colno : Nat) (error : JSValue)
    (doc : Page)
    (hDisplay : getElementById doc "error-display" ≠ none)
    (hText : getElementById doc "error-display-text" ≠ none)
    (hOutside : bannerOutsideText doc = true) :
    (onerror message source lineno colno error doc).2.completes = true
      ∧ displayOf (onerror message source lineno colno error doc).1 "error-display" =
          some "flex" := by
  obtain ⟨i, hi⟩ := Option.ne_none_iff_exists'.mp hDisplay
  obtain ⟨j, hj⟩ := Option.ne_none_iff_exists'.mp hText
  have hout : inside j i = false := by simpa [bannerOutsideText, hi, hj] using hOutside
  rw [onerror_eq, hi, hj]
  exact ⟨rfl, displayOf_setInnerText "flex" hi hout⟩

/-- Witness of C4 on the nested layout, whose banner starts hidden. -/
theorem onerror_shows_witness :
    displayOf nestedPage "error-display" = some "none"
      ∧ displayOf (onerror "boom" "app.js" 3 9 .undefined nestedPage).1 "error-display" =
          some "flex" :=
  ⟨by decide,
   (onerror_shows "boom" "app.js" 3 9 .undefined nestedPage (by decide) (by decide)
      (by decide)).2⟩

/-- C4 as stated fails.  On a page whose banner lies inside the text surface both
elements exist and the call completes, but the assignment of the text removes
the banner: afterwards no `error-display` element is left to be shown. -/
theorem onerror_shows_counterexample :
    getElementById invertedPage "error-display" ≠ none
      ∧ getElementById invertedPage "error-display-text" ≠ none
      ∧ (onerror "boom" "app.js" 3 9 .undefined invertedPage).2.completes = true
      ∧ displayOf (onerror "boom" "app.js" 3 9 .undefined invertedPage).1 "error-display" =
          none
      ∧ displayOf (onerror "boom" "app.js" 3 9 .undefined invertedPage).1 "error-display" ≠
          some "flex" := by
  decide

/-- C5 (as amended): the handler is idempotent on the page state when the banner
does not lie inside the text surface.  When a call on such a page completes, a
second call with the same arguments, made on the page the first one left, ends
the same way and leaves the same page; if the banner exists it is still shown
after the second call. -/
theorem onerror_idempotent (message source : String) (lineno colno : Nat) (error : JSValue)
    (doc : Page)
    (hDone : (onerror message source lineno colno error doc).2.completes = true)
    (hOutside : bannerOutsideText doc = true) :
    onerror message source lineno colno error
        (onerror message source lineno colno error doc).1 =
      onerror message source lineno colno error doc
      ∧ (getElementById doc "error-display" ≠ none →
          displayOf (onerror message source lineno colno error
            (onerror message source lineno colno error doc).1).1 "error-display" =
              some "flex") := by
  rw [onerror_eq message source lineno colno error doc] at hDone ⊢
  cases hi : getElementById doc "error-display" with
  | none =>
    refine ⟨?_, fun h => absurd rfl h⟩
    dsimp only
    rw [onerror_eq, hi]
  | some i =>
    cases hj : getElementById doc "error-display-text" with
    | none => simp [hi, hj, Completion.completes] at hDone
    | some j =>
      have hout : inside j i = false := by simpa [bannerOutsideText, hi, hj] using hOutside
      have hi' : getElementById
          (setInnerText (setDisplay doc i "flex") j (errorText message source lineno colno))
          "error-display" = some i := by
        unfold setInnerText
        exact getElementById_replaceChildren (getElementById_renderedTextFragment _ _) j _ i
          (by rw [getElementById_setDisplay]; exact hi) hout
      have hj' : getElementById
          (setInnerText (setDisplay doc i "flex") j (errorText message source lineno colno))
          "error-display-text" = some j := by
        unfold setInnerText
        exact getElementById_replaceChildren (getElementById_renderedTextFragment _ _) j _ j
          (by rw [getElementById_setDisplay]; exact hj) (inside_self j)
      have hTwice : onerror message source lineno colno error
          (setInnerText (setDisplay doc i "flex") j (errorText message source lineno colno)) =
          (setInnerText (setDisplay doc i "flex") j (errorText message source lineno colno),
            .normal .undefined) := by
        rw [onerror_eq, hi', hj']
        dsimp only
        rw [writes_again doc i j _ hout]
      dsimp only
      rw [hTwice]
      exact ⟨rfl, fun _ => displayOf_setInnerText "flex" hi hout⟩

/-- Witness of C5 on the nested layout. -/
theorem onerror_idempotent_witness :
    onerror "boom" "app.js" 3 9 .undefined (onerror "boom" "app.js" 3 9 .undefined nestedPage).1 =
      onerror "boom" "app.js" 3 9 .undefined nestedPage
      ∧ displayOf (onerror "boom" "app.js" 3 9 .undefined
          (onerror "boom" "app.js" 3 9 .undefined nestedPage).1).1 "error-display" =
            some "flex" :=
  ⟨(onerror_idempotent "boom" "app.js" 3 9 .undefined nestedPage (by decide) (by decide)).1,
   (onerror_idempotent "boom" "app.js" 3 9 .undefined nestedPage (by decide) (by decide)).2
      (by decide)⟩

/-- C5 as stated fails.  On a page whose first banner lies inside the text surface
and which has a second banner, the first call completes and removes the first
banner; the second call then reveals the second banner, so the page after two
calls is not the page after one. -/
theorem onerror_idempotent_counterexample :
    (onerror "boom" "app.js" 3 9 .undefined invertedPageTwoBanners).2.completes = true
      ∧ onerror "boom" "app.js" 3 9 .undefined
          (onerror "boom" "app.js" 3 9 .undefined invertedPageTwoBanners).1 ≠
        onerror "boom" "app.js" 3 9 .undefined invertedPageTwoBanners
      ∧ displayOf (onerror "boom" "app.js" 3 9 .undefined invertedPageTwoBanners).1
          "error-display" = some "none"
      ∧ displayOf (onerror "boom" "app.js" 3 9 .undefined
          (onerror "boom" "app.js" 3 9 .undefined invertedPageTwoBanners).1).1
          "error-display" = some "flex" := by
  decide

/-- C6 (as amended): the frame of the handler.  For every input and every page,
the call can change only the display state of the element that the lookup of
`error-display` gives and the child list of the element that the lookup of
`error-display-text` gives, whose nodes are all replaced: with that display
state blanked and that child list emptied, the page after the call is the page
before.  Every node outside the text surface keeps its place, its own
properties and its text; the display state of `error-display-text` is what it
was.  (The text of an element that contains the text surface changes with it.) -/
theorem onerror_frame (message source : String) (lineno colno : Nat) (error : JSValue)
    (doc : Page) :
    withoutWrites (getElementById doc "error-display")
        (getElementById doc "error-display-text")
        (onerror message source lineno colno error doc).1 =
      withoutWrites (getElementById doc "error-display")
        (getElementById doc "error-display-text") doc
      ∧ displayOf (onerror message source lineno colno error doc).1 "error-display-text" =
          displayOf doc "error-display-text" := by
  rw [onerror_eq]
  cases hi : getElementById doc "error-display" with
  | none => exact ⟨rfl, rfl⟩
  | some i =>
    have hblank : ∀ d : Page, setDisplay (setDisplay d i "flex") i "" = setDisplay d i "" := by
      intro d
      unfold setDisplay
      rw [modifyElement_modifyElement]
    cases hj : getElementById doc "error-display-text" with
    | none =>
      refine ⟨?_, ?_⟩
      · dsimp only [withoutWrites]
        exact hblank doc
      · dsimp only
        simp only [displayOf, elementById, getElementById_setDisplay, hj, Option.none_bind]
    | some j =>
      have hij : i ≠ j := getElementById_ne (by decide) hi hj
      refine ⟨?_, ?_⟩
      · dsimp only [withoutWrites]
        unfold setInnerText
        cases hin : inside j i with
        | true =>
          unfold setDisplay
          rw [replaceChildren_modifyElement_inside _ _ i j _ hin,
            replaceChildren_replaceChildren,
            replaceChildren_modifyElement_inside _ _ i j _ hin,
            replaceChildren_modifyElement_inside _ _ i j _ hin]
        | false =>
          unfold setDisplay
          rw [modifyElement_replaceChildren _ _ i j _ hin, replaceChildren_replaceChildren,
            modifyElement_modifyElement]
      · dsimp only
        obtain ⟨e, cs, he, _⟩ := nodeAt_of_getElementById hj
        have hfst : (nodeAt (setDisplay doc i "flex") j).map Prod.fst = some e := by
          unfold setDisplay
          rw [nodeAt_modifyElement_fst _ i j doc hij, he]
          rfl
        cases hn : nodeAt (setDisplay doc i "flex") j with
        | none => simp [hn] at hfst
        | some n =>
          obtain ⟨e', cs'⟩ := n
          simp only [hn, Option.map_some', Option.some.injEq] at hfst
          subst hfst
          have hfind : getElementById
              (setInnerText (setDisplay doc i "flex") j
                (errorText message source lineno colno)) "error-display-text" = some j := by
            unfold setInnerText
            exact getElementById_replaceChildren (getElementById_renderedTextFragment _ _) j _ j
              (by rw [getElementById_setDisplay]; exact hj) (inside_self j)
          simp only [displayOf, elementById, hfind, hj, Option.some_bind, he]
          unfold setInnerText
          rw [nodeAt_replaceChildren_self _ hn]
          rfl

/-- Witness of C6 on the nested layout: apart from the banner's display state and
the content of the text surface the page is as before, and the text surface
keeps its display state. -/
theorem onerror_frame_witness :
    withoutWrites (some []) (some [Step.child])
        (onerror "boom" "app.js" 3 9 .undefined nestedPage).1 =
      withoutWrites (some []) (some [Step.child]) nestedPage
      ∧ displayOf (onerror "boom" "app.js" 3 9 .undefined nestedPage).1 "error-display-text" =
          displayOf nestedPage "error-display-text" :=
  onerror_frame "boom" "app.js" 3 9 .undefined nestedPage

/-- C6 as stated fails.  On the nested layout the text of `error-display` is not
what it was, the element inside the text surface is no longer in the page, and
a line feed in the message puts a new `br` element into the page. -/
theorem onerror_frame_counterexample :
    (onerror "a\nb" "app.js" 3 9 .undefined nestedPage).1 =
        .element (el "error-display" "flex")
          (.element (el "error-display-text" "")
            (.text "Error: a" (.element br .nil (.text "b at app.js:3:9" .nil))) .nil)
        (.element (el "footer" "") (.text "bye" .nil) .nil)
      ∧ textOf nestedPage "error-display" = some "stale"
      ∧ textOf (onerror "boom" "app.js" 3 9 .undefined nestedPage).1 "error-display" =
          some "Error: boom at app.js:3:9"
      ∧ textOf (onerror "boom" "app.js" 3 9 .undefined nestedPage).1 "error-display" ≠
          textOf nestedPage "error-display"
      ∧ getElementById nestedPage "inner" ≠ none
      ∧ getElementById (onerror "boom" "app.js" 3 9 .undefined nestedPage).1 "inner" = none := by
  decide

/-- C7: the fifth argument has no influence.  Two calls from the same page with
the same message, source, line and column end the same way and leave the same
page, whatever the two error objects are. -/
theorem onerror_ignores_error (message source : String) (lineno colno : Nat)
    (error₁ error₂ : JSValue) (doc : Page) :
    onerror message source lineno colno error₁ doc =
      onerror message source lineno colno error₂ doc := by
  rw [onerror_eq, onerror_eq]

/-- C8: on the two paths on which the handler completes (banner absent, or both
elements present) it returns `undefined`; in particular it does not return `true`. -/
theorem onerror_returns_undefined (message source : String) (lineno colno : Nat)
    (error : JSValue) (doc : Page)
    (hPath : getElementById doc "error-display" = none ∨
      (getElementById doc "error-display" ≠ none ∧
        getElementById doc "error-display-text" ≠ none)) :
    (onerror message source lineno colno error doc).2 = .normal .undefined
      ∧ (onerror message source lineno colno error doc).2 ≠ .normal (.bool true) := by
  have h : (onerror message source lineno colno error doc).2 = .normal .undefined := by
    rw [onerror_eq]
    rcases hPath with hAbsent | ⟨hDisplay, hText⟩
    · rw [hAbsent]
    · obtain ⟨i, hi⟩ := Option.ne_none_iff_exists'.mp hDisplay
      obtain ⟨j, hj⟩ := Option.ne_none_iff_exists'.mp hText
      rw [hi, hj]
  rw [h]
  exact ⟨rfl, by decide⟩

/-- Witness of C8 on both completing paths. -/
theorem onerror_returns_undefined_witness :
    (onerror "boom" "app.js" 3 9 .undefined pageWithoutBanner).2 = .normal .undefined
      ∧ (onerror "boom" "app.js" 3 9 .undefined samplePage).2 = .normal .undefined :=
  ⟨(onerror_returns_undefined "boom" "app.js" 3 9 .undefined pageWithoutBanner
      (Or.inl (by decide))).1,
   (onerror_returns_undefined "boom" "app.js" 3 9 .undefined samplePage
      (Or.inr ⟨by decide, by decide⟩)).1⟩

/-- C9: when `error-display` exists and no element has id `error-display-text`,
the call does not complete: the assignment of the text throws a `TypeError`. -/
theorem onerror_missing_text_throws (message source : String) (lineno colno : Nat)
    (error : JSValue) (doc : Page)
    (hDisplay : getElementById doc "error-display" ≠ none)
    (hText : getElementById doc "error-display-text" = none) :
    (onerror message source lineno colno error doc).2 = .throw .typeError
      ∧ (onerror message source lineno colno error doc).2.completes = false := by
  obtain ⟨i, hi⟩ := Option.ne_none_iff_exists'.mp hDisplay
  rw [onerror_eq, hi, hText]
  exact ⟨rfl, rfl⟩

/-- Witness of C9 on a page with the banner and without the text surface. -/
theorem onerror_missing_text_throws_witness :
    (onerror "" "" 0 0 .undefined pageWithoutText).2 = .throw .typeError
      ∧ (onerror "" "" 0 0 .undefined pageWithoutText).2.completes = false :=
  onerror_missing_text_throws "" "" 0 0 .undefined pageWithoutText (by decide) (by decide)

/-- C10: the throwing path is not atomic.  When `error-display` exists and
`error-display-text` does not, the call throws and the page it leaves has the
banner shown (`"flex"`); that page differs from the initial one whenever the
banner was not already shown. -/
theorem onerror_throw_not_atomic (message source : String) (lineno colno : Nat)
    (error : JSValue) (doc : Page)
    (hDisplay : getElementById doc "error-display" ≠ none)
    (hText : getElementById doc "error-display-text" = none) :
    (onerror message source lineno colno error doc).2 = .throw .typeError
      ∧ displayOf (onerror message source lineno colno error doc).1 "error-display" =
          some "flex"
      ∧ (displayOf doc "error-display" ≠ some "flex" →
          (onerror message source lineno colno error doc).1 ≠ doc) := by
  obtain ⟨i, hi⟩ := Option.ne_none_iff_exists'.mp hDisplay
  have hShown : displayOf (onerror message source lineno colno error doc).1 "error-display" =
      some "flex" := by
    rw [onerror_eq, hi, hText]
    exact displayOf_setDisplay "flex" hi
  refine ⟨?_, hShown, fun hHidden hSame => ?_⟩
  · rw [onerror_eq, hi, hText]
  · rw [hSame] at hShown
    exact hHidden hShown

/-- Witness of C10: the hidden banner of the page is revealed by the failed call. -/
theorem onerror_throw_not_atomic_witness :
    (onerror "late" "main.js" 12 4 .null pageWithoutText).2 = .throw .typeError
      ∧ displayOf (onerror "late" "main.js" 12 4 .null pageWithoutText).1 "error-display" =
          some "flex"
      ∧ (onerror "late" "main.js" 12 4 .null pageWithoutText).1 ≠ pageWithoutText :=
  have h := onerror_throw_not_atomic "late" "main.js" 12 4 .null pageWithoutText
    (by decide) (by decide)
  ⟨h.1, h.2.1, h.2.2 (by decide)⟩

end ErrorHandler
